import Mathlib

/-!
Shallow embedding of the appointment-scheduling core of the dental-bliss
backend (`src/server.js`, appointment router, and `src/models/Appointment.js`).

Dates travel as `"YYYY-MM-DD"` strings and times as `"HH:mm"` strings, exactly
as in the source.  JavaScript `Date` values are modelled at minute precision:
a civil date is converted to a day number (days since 0000-03-01, by the
standard days-from-civil conversion) and an instant is `day * 1440 + minute`.
The handlers' ad-hoc `new Date()` calls are modelled by an explicit `Clock`
(current day number and minute of day), matching the spec's injectable "now".
-/

namespace DentalBliss

/-- Test for the ASCII digits `0`–`9` (the regex class `\d` / `[0-9]`). -/
def isDig (c : Char) : Bool := '0' ≤ c && c ≤ '9'

/-- Numeric value of a digit string, as JavaScript `parseInt` computes it on an
all-digit string (the only shape it is applied to once the regexes passed). -/
def digitsVal (l : List Char) : Nat :=
  l.foldl (fun acc c => acc * 10 + (c.toNat - '0'.toNat)) 0

/-- Embedding of the date regex `^\d{4}-\d{2}-\d{2}$` from the booking handler. -/
def dateRegexTest (s : String) : Bool :=
  match s.data with
  | [y1, y2, y3, y4, '-', m1, m2, '-', d1, d2] =>
      isDig y1 && isDig y2 && isDig y3 && isDig y4 &&
      isDig m1 && isDig m2 && isDig d1 && isDig d2
  | _ => false

/-- Embedding of the time regex `^([0-1]?[0-9]|2[0-3]):[0-5][0-9]$` from the
booking handler.  The hour part is one digit (`[0-9]` via the optional
`[0-1]?`), or two digits `0x`/`1x`, or `20`–`23`; the minute part is exactly
two digits `00`–`59`. -/
def timeRegexTest (s : String) : Bool :=
  match s.data with
  | [h1, ':', m1, m2] =>
      isDig h1 && ('0' ≤ m1 && m1 ≤ '5') && isDig m2
  | [h1, h2, ':', m1, m2] =>
      ((('0' ≤ h1 && h1 ≤ '1') && isDig h2) ||
       (h1 = '2' && ('0' ≤ h2 && h2 ≤ '3'))) &&
      ('0' ≤ m1 && m1 ≤ '5') && isDig m2
  | _ => false

/-- Embedding of `parseInt(time.split(':')[0])`: the digits before the first colon. -/
def hourOf (t : String) : Nat :=
  digitsVal (t.data.takeWhile (fun c => c ≠ ':'))

/-- Embedding of `parseInt(time.split(':')[1])`: the digits between the first and second
colon (to the end of the string for a well-formed `HH:mm`). -/
def minuteOf (t : String) : Nat :=
  digitsVal (((t.data.dropWhile (fun c => c ≠ ':')).drop 1).takeWhile (fun c => c ≠ ':'))

/-- Minutes past midnight denoted by an `HH:mm` string. -/
def timeVal (t : String) : Nat := hourOf t * 60 + minuteOf t

/-- The `(year, month, day)` fields of a `"YYYY-MM-DD"` string
(`(0,0,0)` on any other shape; the handlers only compare dates that passed
`dateRegexTest` or came from stored records). -/
def dateParts (s : String) : Nat × Nat × Nat :=
  match s.data with
  | [y1, y2, y3, y4, '-', m1, m2, '-', d1, d2] =>
      (digitsVal [y1, y2, y3, y4], digitsVal [m1, m2], digitsVal [d1, d2])
  | _ => (0, 0, 0)

/-- Days since 0000-03-01 of the civil date `(y, m, d)` (valid for the years
`1 ≤ y ≤ 9999` that the wire format can carry); this is the standard
days-from-civil conversion and models `new Date("YYYY-MM-DD")` at day
granularity. -/
def daysFromCivil (y m d : Nat) : Nat :=
  let yAdj : Nat := if m ≤ 2 then y - 1 else y
  let era : Nat := yAdj / 400
  let yoe : Nat := yAdj % 400
  let mp : Nat := (m + 9) % 12
  let doy : Nat := (153 * mp + 2) / 5 + d - 1
  let doe : Nat := yoe * 365 + yoe / 4 - yoe / 100 + doy
  era * 146097 + doe

/-- Day number of a `"YYYY-MM-DD"` string. -/
def dayNum (s : String) : Nat :=
  let p := dateParts s
  daysFromCivil p.1 p.2.1 p.2.2

/-- Days in a month of the proleptic Gregorian calendar. -/
def daysInMonth (y m : Nat) : Nat :=
  if m = 2 then (if y % 4 = 0 && (y % 100 ≠ 0 || y % 400 = 0) then 29 else 28)
  else if m = 4 || m = 6 || m = 9 || m = 11 then 30
  else 31

/-- A `"YYYY-MM-DD"` string denoting an actual calendar date (the only inputs
on which the day-granularity model of JavaScript `Date` is exercised). -/
def isValidDate (s : String) : Bool :=
  dateRegexTest s &&
  (let p := dateParts s
   1 ≤ p.1 && 1 ≤ p.2.1 && p.2.1 ≤ 12 && 1 ≤ p.2.2 && p.2.2 ≤ daysInMonth p.1 p.2.1)

/-- The handlers' view of "now": today's day number (local midnight, after
`today.setHours(0,0,0,0)`) and the current minute of the day. -/
structure Clock where
  day : Nat
  minOfDay : Nat
deriving Repr, DecidableEq

/-- The current instant in minutes-since-epoch form. -/
def Clock.instant (c : Clock) : Int := (c.day : Int) * 1440 + (c.minOfDay : Int)

/-- Appointment lifecycle status (`src/models/Appointment.js`). -/
inductive Status where
  | pending
  | confirmed
  | cancelled
  | completed
deriving Repr, DecidableEq

/-- The persisted appointment entity (`src/models/Appointment.js`); timestamps
are minutes-since-epoch integers. -/
structure Appointment where
  appointmentId : Nat
  userId : String
  userName : String
  userEmail : String
  service : String
  dentist : String
  date : String
  time : String
  notes : String
  status : Status
  createdAt : Int
  updatedAt : Int
deriving Repr, DecidableEq

/-- An appointment occupies its slot while `Pending` or `Confirmed`. -/
def activeAt (a : Appointment) : Bool :=
  a.status == Status.pending || a.status == Status.confirmed

/-- The `(dentist, date, time)` slot of an appointment. -/
def slotOf (a : Appointment) : String × String × String :=
  (a.dentist, a.date, a.time)

/-- The parsed body of `POST /book`; absent fields arrive as `""`
(JavaScript falsiness on strings). -/
structure BookRequest where
  userId : String
  userName : String
  userEmail : String
  service : String
  dentist : String
  date : String
  time : String
  notes : String
deriving Repr, DecidableEq

/-- Rejection reasons of the three policy-checked operations. -/
inductive Reason where
  | missingField
  | malformedInput
  | slotTaken
  | outsideHours
  | pastDate
  | pastTime
  | tooLateToCancel
  | notFound
deriving Repr, DecidableEq

/-- Embedding of `Appointment.findOne({dentist, date, time, status: $in [Pending,
Confirmed]})` (with the optional `appointmentId: $ne excludeId` filter of
the update handler), reduced to whether a matching record exists. -/
def hasActiveConflict (store : List Appointment)
    (dentist date time : String) (excludeId : Option Nat) : Bool :=
  store.any fun a =>
    a.dentist == dentist && a.date == date && a.time == time &&
    activeAt a &&
    (match excludeId with
     | none => true
     | some i => a.appointmentId != i)

/-- Embedding of the required-field check `!userId || !userName || !userEmail ||
!service || !dentist || !date || !time` from the booking handler. -/
def missingRequired (r : BookRequest) : Bool :=
  r.userId == "" || r.userName == "" || r.userEmail == "" ||
  r.service == "" || r.dentist == "" || r.date == "" || r.time == ""

/-- Embedding of `hour < 8 || hour > 17 || (hour === 17 && minute > 0)`, the
booking handler's working-hours check. -/
def outsideWorkingHours (t : String) : Bool :=
  hourOf t < 8 || 17 < hourOf t || (hourOf t == 17 && 0 < minuteOf t)

/-- The validation chain of `POST /book` in source order: required fields,
date format, time format, slot conflict, working hours, past date, past time
(same-day only).  `none` means every check passed. -/
def evaluateBooking (store : List Appointment) (c : Clock) (r : BookRequest) :
    Option Reason :=
  if missingRequired r then some Reason.missingField
  else if !dateRegexTest r.date then some Reason.malformedInput
  else if !timeRegexTest r.time then some Reason.malformedInput
  else if hasActiveConflict store r.dentist r.date r.time none then
    some Reason.slotTaken
  else if outsideWorkingHours r.time then some Reason.outsideHours
  else if dayNum r.date < c.day then some Reason.pastDate
  else if dayNum r.date == c.day && timeVal r.time < c.minOfDay then
    some Reason.pastTime
  else none

/-- The appointment document `POST /book` constructs on success. -/
def mkAppointment (id : Nat) (r : BookRequest) (c : Clock) : Appointment :=
  { appointmentId := id
    userId := r.userId
    userName := r.userName
    userEmail := r.userEmail
    service := r.service
    dentist := r.dentist
    date := r.date
    time := r.time
    notes := r.notes
    status := Status.pending
    createdAt := c.instant
    updatedAt := c.instant }

/-- Handler for `POST /book`: evaluate, and save a new `Pending` appointment only when
every check passed.  Returns the rejection reason (if any) and the store after
the request. -/
def book (store : List Appointment) (c : Clock) (r : BookRequest) (id : Nat) :
    Option Reason × List Appointment :=
  match evaluateBooking store c r with
  | some reason => (some reason, store)
  | none => (none, mkAppointment id r c :: store)

/-- Replacement of the first element satisfying `p` by its image under `f`;
this models Mongoose loading one document with `findOne` and writing it back
with `save()`. -/
def replaceFirst {α : Type} (p : α → Bool) (f : α → α) : List α → List α
  | [] => []
  | x :: xs => if p x then f x :: xs else x :: replaceFirst p f xs

/-- Combined date+time instant of an appointment in minutes, as the cancel
handler builds it with `new Date(appointment.date)` followed by
`setHours(hh, mm)`. -/
def apptInstant (a : Appointment) : Int :=
  ((dayNum a.date * 1440 + timeVal a.time : Nat) : Int)

/-- Embedding of `(appointmentDate - now) / (1000 * 60 * 60)`: the signed
difference to now in (fractional) hours. -/
def hoursDifference (a : Appointment) (now : Int) : ℚ :=
  ((apptInstant a - now : Int) : ℚ) / 60

/-- Decision core of the cancel handler: accept unless
`hoursDifference < 24`. -/
def evaluateCancellation (a : Appointment) (now : Int) : Bool :=
  if hoursDifference a now < 24 then false else true

/-- Handler for `PUT /cancel/:appointmentId`: ownership lookup, the 24-hour
window check, then the status/timestamp mutation. -/
def cancel (store : List Appointment) (apptId : Nat) (userId : String)
    (now : Int) : Option Reason × List Appointment :=
  if userId == "" then (some Reason.missingField, store)
  else
    match store.find? (fun a => a.appointmentId == apptId && a.userId == userId) with
    | none => (some Reason.notFound, store)
    | some a =>
        if evaluateCancellation a now then
          (none,
           replaceFirst (fun b => b.appointmentId == apptId && b.userId == userId)
             (fun b => { b with status := Status.cancelled, updatedAt := now }) store)
        else (some Reason.tooLateToCancel, store)

/-- The parsed body of `PUT /:appointmentId`.  For `date`, `time`, `service`
and `dentist` the handler treats absent and empty alike (`if (date)`), so
`none` covers both; `notes` is applied whenever it is not `undefined`. -/
structure UpdateRequest where
  userId : String
  date : Option String
  time : Option String
  service : Option String
  dentist : Option String
  notes : Option String
deriving Repr, DecidableEq

/-- Embedding of `(date && date !== appointment.date) || (time && time !==
appointment.time) || (dentist && dentist !== appointment.dentist)`: whether
the update would move the appointment to a different slot. -/
def slotChanged (req : UpdateRequest) (a : Appointment) : Bool :=
  (match req.date with | some d => d != a.date | none => false) ||
  (match req.time with | some t => t != a.time | none => false) ||
  (match req.dentist with | some d => d != a.dentist | none => false)

/-- Field application of the update handler (`if (date) appointment.date =
date; ...`), plus the `updatedAt` refresh. -/
def applyUpdate (req : UpdateRequest) (now : Int) (a : Appointment) : Appointment :=
  { a with
    date := req.date.getD a.date
    time := req.time.getD a.time
    service := req.service.getD a.service
    dentist := req.dentist.getD a.dentist
    notes := req.notes.getD a.notes
    updatedAt := now }

/-- Handler for `PUT /:appointmentId`: ownership lookup, a slot-conflict check
(excluding the record itself) performed only when date, time or dentist
actually changes, then field application.  No other booking rule is
re-checked. -/
def update (store : List Appointment) (apptId : Nat) (req : UpdateRequest)
    (now : Int) : Option Reason × List Appointment :=
  match store.find? (fun a => a.appointmentId == apptId && a.userId == req.userId) with
  | none => (some Reason.notFound, store)
  | some a =>
      if slotChanged req a &&
         hasActiveConflict store (req.dentist.getD a.dentist)
           (req.date.getD a.date) (req.time.getD a.time) (some apptId) then
        (some Reason.slotTaken, store)
      else
        (none,
         replaceFirst (fun b => b.appointmentId == apptId && b.userId == req.userId)
           (applyUpdate req now) store)

/-- Embedding of `hour.toString().padStart(2, '0')`. -/
def pad2 (n : Nat) : String := if n < 10 then "0" ++ toString n else toString n

/-- One `"HH:mm"` grid entry. -/
def slotString (h m : Nat) : String := pad2 h ++ ":" ++ pad2 m

/-- The slot grid of the availability handler: hours 8 through 17, minutes 0
and 30, with the `hour === 17 && minute > 0` break (so hour 17 contributes
only `"17:00"`). -/
def allSlots : List String :=
  (List.range 10).flatMap fun i =>
    let hour := 8 + i
    if hour == 17 then [slotString hour 0]
    else [slotString hour 0, slotString hour 30]

/-- Response shape of `GET /availability` (the policy-relevant fields). -/
structure AvailabilityResult where
  availableSlots : List String
  totalSlots : Nat
  bookedSlots : Nat
  isPastDate : Bool
deriving Repr, DecidableEq

set_option linter.unusedVariables false in
/-- Pure core of `GET /availability` once the repository has produced the
`bookedTimes` list: filter the grid by exact string membership, then empty the
available set when the date lies strictly before today.  The dentist does not
influence the computation beyond having selected `bookedTimes`. -/
def computeAvailability (c : Clock) (dentist date : String)
    (bookedTimes : List String) : AvailabilityResult :=
  let available := allSlots.filter fun s => !bookedTimes.contains s
  let past := decide (dayNum date < c.day)
  { availableSlots := if past then [] else available
    totalSlots := allSlots.length
    bookedSlots := bookedTimes.length
    isPastDate := past }

/-- Modelled from the spec: the failure condition of each numbered booking
rule, used to state the rule-order claim.  Rule 2 merges the date-format and
time-format failures into `MalformedInput` as §4.1 does. -/
def specRuleFails (store : List Appointment) (c : Clock) (r : BookRequest) :
    Reason → Bool
  | Reason.missingField => missingRequired r
  | Reason.malformedInput => !dateRegexTest r.date || !timeRegexTest r.time
  | Reason.slotTaken => hasActiveConflict store r.dentist r.date r.time none
  | Reason.outsideHours => outsideWorkingHours r.time
  | Reason.pastDate => decide (dayNum r.date < c.day)
  | Reason.pastTime => dayNum r.date == c.day && decide (timeVal r.time < c.minOfDay)
  | _ => false

/-- Modelled from the spec: the precedence order of §4.1's booking rules. -/
def specRuleOrder : List Reason :=
  [Reason.missingField, Reason.malformedInput, Reason.slotTaken,
   Reason.outsideHours, Reason.pastDate, Reason.pastTime]

/-- Modelled from the spec: the first failing rule in precedence order, or
`none` when every rule passes. -/
def firstFailingRule (store : List Appointment) (c : Clock) (r : BookRequest) :
    Option Reason :=
  specRuleOrder.find? (specRuleFails store c r)

/-- Modelled from the spec: a strict 24-hour `HH:mm` pattern whose hour part
is exactly two digits (`00`–`23`) and minute part two digits (`00`–`59`), the
reading of claim C7's "two-digit hour and two-digit minute". -/
def strictHHmm (s : String) : Bool :=
  match s.data with
  | [h1, h2, ':', m1, m2] =>
      ((('0' ≤ h1 && h1 ≤ '1') && isDig h2) ||
       (h1 = '2' && ('0' ≤ h2 && h2 ≤ '3'))) &&
      ('0' ≤ m1 && m1 ≤ '5') && isDig m2
  | _ => false

/-- Pair relation underlying the store invariant: distinct booking identifiers
and, when both appointments are active, distinct slots. -/
def GoodPair (a b : Appointment) : Prop :=
  a.appointmentId ≠ b.appointmentId ∧
  (activeAt a = true → activeAt b = true → slotOf a ≠ slotOf b)

/-- The inductive store invariant. -/
def StoreInv (s : List Appointment) : Prop := List.Pairwise GoodPair s

/-- Slot exclusivity: at most one active appointment per
`(dentist, date, time)` triple, stated pairwise. -/
def SlotExclusive (s : List Appointment) : Prop :=
  List.Pairwise
    (fun a b => activeAt a = true → activeAt b = true → slotOf a ≠ slotOf b) s

/-- One sequential API operation on the store.  The booking step carries the
freshness of the generated identifier (`uuidv4` plus the schema's unique
index). -/
inductive Step : List Appointment → List Appointment → Prop where
  | book (s : List Appointment) (c : Clock) (r : BookRequest) (id : Nat)
      (hfresh : ∀ a ∈ s, a.appointmentId ≠ id) :
      Step s (DentalBliss.book s c r id).2
  | update (s : List Appointment) (apptId : Nat) (req : UpdateRequest)
      (now : Int) : Step s (DentalBliss.update s apptId req now).2
  | cancel (s : List Appointment) (apptId : Nat) (userId : String)
      (now : Int) : Step s (DentalBliss.cancel s apptId userId now).2

/-- Store states reachable from the empty store by sequential operations. -/
inductive Reachable : List Appointment → Prop where
  | nil : Reachable []
  | step {s t : List Appointment} : Reachable s → Step s t → Reachable t

/-- A sample clock: today is 2030-01-10, 10:00 local time. -/
def sampleClock : Clock := { day := dayNum "2030-01-10", minOfDay := 600 }

/-- A fully valid booking request for 2030-01-15 at 09:00 with Dr. Smith. -/
def sampleRequest : BookRequest :=
  { userId := "u1"
    userName := "Alice"
    userEmail := "alice@example.com"
    service := "Dental Checkup"
    dentist := "Dr. Smith"
    date := "2030-01-15"
    time := "09:00"
    notes := "" }

/-- The same candidate with a one-digit-hour time string. -/
def oneDigitRequest : BookRequest := { sampleRequest with time := "9:00" }

/-- A store holding the single appointment `sampleRequest` would create. -/
def sampleStore : List Appointment := [mkAppointment 1 sampleRequest sampleClock]

/-- An update request that moves the appointment to 17:30, outside the
operating hours. -/
def lateUpdate : UpdateRequest :=
  { userId := "u1"
    date := none
    time := some "17:30"
    service := none
    dentist := none
    notes := none }

/-- An appointment on 2030-01-16 at 09:00, used at the cancellation boundary. -/
def boundaryAppt : Appointment :=
  mkAppointment 2 { sampleRequest with date := "2030-01-16" } sampleClock

/-- The instant exactly 24 hours before `boundaryAppt`. -/
def boundaryNow : Int := apptInstant boundaryAppt - 1440

/-- A booking request with the user identifier left empty. -/
def missingRequest : BookRequest := { sampleRequest with userId := "" }

/-- The sample candidate moved to 17:30 (outside operating hours). -/
def lateRequest : BookRequest := { sampleRequest with time := "17:30" }

/-- The store after `lateUpdate` has moved the sample appointment to 17:30:
it holds an active appointment at an outside-hours slot. -/
def lateStore : List Appointment := (update sampleStore 1 lateUpdate 999).2

/-- A candidate with a time string the regex rejects. -/
def badTimeRequest : BookRequest := { sampleRequest with time := "25:00" }

/-- The sample candidate moved to a date in the past. -/
def pastRequest : BookRequest := { sampleRequest with date := "2020-01-15" }

/-- An update request that moves the appointment to 2020-01-01, a past date. -/
def pastUpdate : UpdateRequest :=
  { userId := "u1"
    date := some "2020-01-01"
    time := none
    service := none
    dentist := none
    notes := none }

/-- A second booking for the same day and dentist at 10:00. -/
def secondRequest : BookRequest := { sampleRequest with time := "10:00" }

/-- A store holding the sample appointment (09:00) and a second one (10:00). -/
def twoStore : List Appointment := (book sampleStore sampleClock secondRequest 2).2

/-- An update request that moves an appointment onto the occupied 09:00 slot. -/
def collideUpdate : UpdateRequest :=
  { userId := "u1"
    date := none
    time := some "09:00"
    service := none
    dentist := none
    notes := none }

end DentalBliss

namespace DentalBliss

theorem goodPair_symm {a b : Appointment} (h : GoodPair a b) : GoodPair b a :=
  ⟨h.1.symm, fun hb ha hs => h.2 ha hb hs.symm⟩

theorem mem_replaceFirst {α : Type} {p : α → Bool} {f : α → α} :
    ∀ {s : List α} {y : α}, y ∈ replaceFirst p f s →
      y ∈ s ∨ ∃ x, x ∈ s ∧ p x = true ∧ y = f x := by
  intro s
  induction s with
  | nil => intro y hy; simp [replaceFirst] at hy
  | cons a l ih =>
    intro y hy
    rw [replaceFirst] at hy
    by_cases hp : p a = true
    · rw [if_pos hp] at hy
      rcases List.mem_cons.1 hy with h | h
      · exact Or.inr ⟨a, List.mem_cons_self a l, hp, h⟩
      · exact Or.inl (List.mem_cons_of_mem a h)
    · rw [if_neg hp] at hy
      rcases List.mem_cons.1 hy with h | h
      · exact Or.inl (h ▸ List.mem_cons_self a l)
      · rcases ih h with h2 | ⟨x, hx, hpx, hyx⟩
        · exact Or.inl (List.mem_cons_of_mem a h2)
        · exact Or.inr ⟨x, List.mem_cons_of_mem a hx, hpx, hyx⟩

theorem pairwise_replaceFirst {α : Type} {R : α → α → Prop}
    (hsym : ∀ a b, R a b → R b a) (p : α → Bool) (f : α → α) :
    ∀ s : List α, List.Pairwise R s →
      (∀ x ∈ s, p x = true → ∀ b ∈ s, R x b → R (f x) b) →
      List.Pairwise R (replaceFirst p f s) := by
  intro s
  induction s with
  | nil => intro _ _; simp [replaceFirst]
  | cons a l ih =>
    intro hpw hf
    rw [List.pairwise_cons] at hpw
    rw [replaceFirst]
    by_cases hp : p a = true
    · rw [if_pos hp]
      refine List.pairwise_cons.2 ⟨?_, hpw.2⟩
      intro b hb
      exact hf a (List.mem_cons_self a l) hp b (List.mem_cons_of_mem a hb) (hpw.1 b hb)
    · rw [if_neg hp]
      refine List.pairwise_cons.2 ⟨?_, ?_⟩
      · intro y hy
        rcases mem_replaceFirst hy with h | ⟨x, hx, hpx, rfl⟩
        · exact hpw.1 y h
        · exact hsym _ _ (hf x (List.mem_cons_of_mem a hx) hpx a
            (List.mem_cons_self a l) (hsym _ _ (hpw.1 x hx)))
      · refine ih hpw.2 ?_
        intro x hx hpx b hb
        exact hf x (List.mem_cons_of_mem a hx) hpx b (List.mem_cons_of_mem a hb)

theorem evaluateBooking_none_no_conflict
    {store : List Appointment} {c : Clock} {r : BookRequest}
    (h : evaluateBooking store c r = none) :
    hasActiveConflict store r.dentist r.date r.time none = false := by
  unfold evaluateBooking at h
  split_ifs at h with h1 h2 h3 h4 h5 h6 h7
  exact Bool.eq_false_iff.2 h4

theorem no_conflict_slot {store : List Appointment} {d dt t : String}
    (h : hasActiveConflict store d dt t none = false) :
    ∀ a ∈ store, activeAt a = true → slotOf a ≠ (d, dt, t) := by
  intro a ha hact heq
  simp only [slotOf, Prod.mk.injEq] at heq
  simp only [hasActiveConflict, List.any_eq_false, Bool.and_eq_true,
    beq_iff_eq, not_and] at h
  exact absurd hact (by simpa [heq.1, heq.2.1, heq.2.2] using h a ha)

theorem no_conflict_excl {store : List Appointment} {d dt t : String} {id : Nat}
    (h : hasActiveConflict store d dt t (some id) = false) :
    ∀ a ∈ store, a.appointmentId ≠ id → activeAt a = true →
      slotOf a ≠ (d, dt, t) := by
  intro a ha hne hact heq
  simp only [slotOf, Prod.mk.injEq] at heq
  simp only [hasActiveConflict, List.any_eq_false, Bool.and_eq_true,
    beq_iff_eq, bne_iff_ne, not_and] at h
  exact absurd (by simpa [heq.1, heq.2.1, heq.2.2, hact] using h a ha) (by simpa using hne)

theorem activeAt_applyUpdate (req : UpdateRequest) (now : Int) (a : Appointment) :
    activeAt (applyUpdate req now a) = activeAt a := rfl

theorem activeAt_cancelled (a : Appointment) (now : Int) :
    activeAt { a with status := Status.cancelled, updatedAt := now } = false := rfl

theorem slotChanged_false_slot {req : UpdateRequest} {a : Appointment}
    (now : Int) (h : slotChanged req a = false) :
    slotOf (applyUpdate req now a) = slotOf a := by
  unfold slotChanged at h
  simp only [Bool.or_eq_false_iff] at h
  obtain ⟨⟨hd, ht⟩, hden⟩ := h
  simp only [slotOf, applyUpdate]
  rcases hdate : req.date with _ | d <;> rcases htime : req.time with _ | t <;>
    rcases hdent : req.dentist with _ | den <;>
    simp_all [Option.getD, bne_eq_false_iff_eq]

theorem book_preserves_inv {s : List Appointment} {c : Clock} {r : BookRequest}
    {id : Nat} (hfresh : ∀ a ∈ s, a.appointmentId ≠ id) (hinv : StoreInv s) :
    StoreInv (book s c r id).2 := by
  unfold book
  cases heval : evaluateBooking s c r with
  | some reason => exact hinv
  | none =>
      refine List.pairwise_cons.2 ⟨?_, hinv⟩
      intro b hb
      have hconf := evaluateBooking_none_no_conflict heval
      refine ⟨fun hid => hfresh b hb hid.symm, fun hact hbact hslot => ?_⟩
      exact no_conflict_slot hconf b hb hbact hslot.symm

theorem cancel_preserves_inv {s : List Appointment} {apptId : Nat}
    {uid : String} {now : Int} (hinv : StoreInv s) :
    StoreInv (cancel s apptId uid now).2 := by
  unfold cancel
  split_ifs with h1
  · exact hinv
  · cases hfind : s.find? (fun a => a.appointmentId == apptId && a.userId == uid) with
    | none => exact hinv
    | some a =>
        dsimp only
        split_ifs with h2
        · refine pairwise_replaceFirst (fun a b => goodPair_symm) _ _ s hinv ?_
          intro x hx hpx b hb hgood
          refine ⟨hgood.1, fun hact => ?_⟩
          rw [activeAt_cancelled x now] at hact
          exact Bool.noConfusion hact
        · exact hinv

theorem update_preserves_inv {s : List Appointment} {apptId : Nat}
    {req : UpdateRequest} {now : Int} (hinv : StoreInv s) :
    StoreInv (update s apptId req now).2 := by
  unfold update
  cases hfind : s.find? (fun a => a.appointmentId == apptId && a.userId == req.userId) with
  | none => exact hinv
  | some a =>
      dsimp only
      have hamem : a ∈ s := List.mem_of_find?_eq_some hfind
      have haid : a.appointmentId = apptId := by
        have h2 := List.find?_some hfind
        simp only [Bool.and_eq_true, beq_iff_eq] at h2
        exact h2.1
      split_ifs with hcond
      · exact hinv
      · refine pairwise_replaceFirst (fun a b => goodPair_symm) _ _ s hinv ?_
        intro x hx hpx b hb hgood
        have hxid : x.appointmentId = apptId := by
          simp only [Bool.and_eq_true, beq_iff_eq] at hpx
          exact hpx.1
        have hxa : x = a := by
          by_contra hne
          exact (hinv.forall (fun a b h => goodPair_symm h) hx hamem hne).1
            (hxid.trans haid.symm)
        subst hxa
        refine ⟨hgood.1, fun hact hbact => ?_⟩
        rw [activeAt_applyUpdate] at hact
        rcases hsc : slotChanged req x with _ | _
        · rw [slotChanged_false_slot now hsc]
          exact hgood.2 hact hbact
        · have hnc : hasActiveConflict s (req.dentist.getD x.dentist)
              (req.date.getD x.date) (req.time.getD x.time) (some apptId) = false := by
            rcases hb2 : hasActiveConflict s (req.dentist.getD x.dentist)
                (req.date.getD x.date) (req.time.getD x.time) (some apptId) with _ | _
            · rfl
            · exact absurd (by rw [hsc, hb2]; rfl) hcond
          have hbid : b.appointmentId ≠ apptId := fun hbid =>
            hgood.1 (hxid.trans hbid.symm)
          intro hslot
          exact no_conflict_excl hnc b hb hbid hbact
            (by rw [← hslot]; rfl)

theorem step_preserves_inv {s t : List Appointment} (hstep : Step s t)
    (hinv : StoreInv s) : StoreInv t := by
  cases hstep with
  | book c r id hfresh => exact book_preserves_inv hfresh hinv
  | update apptId req now => exact update_preserves_inv hinv
  | cancel apptId uid now => exact cancel_preserves_inv hinv

theorem reachable_inv {s : List Appointment} (h : Reachable s) : StoreInv s := by
  induction h with
  | nil => exact List.Pairwise.nil
  | step hr hstep ih => exact step_preserves_inv hstep ih

/-- C1: Slot exclusivity invariant: under sequential execution of the
operations (book, update, cancel), every reachable store state has at most one
appointment with status Pending or Confirmed for any given
(dentist, date, time) triple; booking checks the conflict set before
inserting, and update checks it excluding the record being updated, so each
operation preserves the invariant. -/
theorem slot_exclusivity_reachable {s : List Appointment} (h : Reachable s) :
    SlotExclusive s :=
  List.Pairwise.imp (fun hg => hg.2) (reachable_inv h)

/-- Witness for C1: slot exclusivity holds at the concrete store reached by
booking `sampleRequest` into the empty store. -/
theorem slot_exclusivity_reachable_witness :
    SlotExclusive (book [] sampleClock sampleRequest 1).2 :=
  slot_exclusivity_reachable
    (Reachable.step Reachable.nil
      (Step.book [] sampleClock sampleRequest 1
        (fun a ha => absurd ha (List.not_mem_nil a))))

/-- C9: Atomicity on rejection: whenever a booking request is rejected for any
reason, no appointment record is created and the store is unchanged; whenever
a cancellation request is rejected, the store (hence every appointment's
status and modification timestamp) is unchanged. -/
theorem rejection_atomicity :
    (∀ (store : List Appointment) (c : Clock) (r : BookRequest) (id : Nat)
        (reason : Reason),
        (book store c r id).1 = some reason → (book store c r id).2 = store) ∧
    (∀ (store : List Appointment) (apptId : Nat) (uid : String) (now : Int)
        (reason : Reason),
        (cancel store apptId uid now).1 = some reason →
          (cancel store apptId uid now).2 = store) := by
  constructor
  · intro store c r id reason h
    unfold book at h ⊢
    cases heval : evaluateBooking store c r with
    | some rr => rfl
    | none => rw [heval] at h; exact absurd h (by simp)
  · intro store apptId uid now reason h
    unfold cancel at h ⊢
    split_ifs at h ⊢ with h1
    · rfl
    · cases hfind : store.find? (fun a => a.appointmentId == apptId && a.userId == uid) with
      | none => rfl
      | some a =>
          rw [hfind] at h
          dsimp only at h ⊢
          split_ifs at h ⊢ with h2
          rfl

/-- Witness for C9: a rejected booking (missing user identifier) and a
rejected cancellation (unknown appointment) leave the empty store unchanged. -/
theorem rejection_atomicity_witness :
    (book [] sampleClock missingRequest 5).2 = [] ∧
    (cancel [] 9 "u1" 0).2 = [] :=
  ⟨rejection_atomicity.1 [] sampleClock missingRequest 5 Reason.missingField rfl,
   rejection_atomicity.2 [] 9 "u1" 0 Reason.notFound rfl⟩

/-- C2: Rule-order precedence: for every booking candidate, the rejection
reason is determined by the first failing rule in the order MissingField,
MalformedInput, SlotTaken, OutsideHours, PastDate, PastTime; in particular, a
candidate whose slot is already held by a Pending/Confirmed record and whose
time is also outside operating hours is rejected with SlotTaken, not
OutsideHours. -/
theorem booking_rule_order :
    (∀ (store : List Appointment) (c : Clock) (r : BookRequest),
        evaluateBooking store c r = firstFailingRule store c r) ∧
    (∀ (store : List Appointment) (c : Clock) (r : BookRequest),
        missingRequired r = false → dateRegexTest r.date = true →
        timeRegexTest r.time = true →
        hasActiveConflict store r.dentist r.date r.time none = true →
        outsideWorkingHours r.time = true →
        evaluateBooking store c r = some Reason.slotTaken) := by
  constructor
  · intro store c r
    unfold evaluateBooking firstFailingRule specRuleOrder
    simp only [List.find?]
    by_cases h1 : missingRequired r
    · simp [specRuleFails, h1]
    · by_cases h2 : dateRegexTest r.date
      · by_cases h3 : timeRegexTest r.time
        · by_cases h4 : hasActiveConflict store r.dentist r.date r.time none
          · simp [specRuleFails, h1, h2, h3, h4]
          · by_cases h5 : outsideWorkingHours r.time
            · simp [specRuleFails, h1, h2, h3, h4, h5]
            · by_cases h6 : dayNum r.date < c.day
              · simp [specRuleFails, h1, h2, h3, h4, h5, h6]
              · by_cases h7 : dayNum r.date = c.day
                · by_cases h8 : timeVal r.time < c.minOfDay
                  · simp [specRuleFails, h1, h2, h3, h4, h5, h6, h7, h8]
                  · simp [specRuleFails, h1, h2, h3, h4, h5, h6, h7, h8]
                · have h7b : (dayNum r.date == c.day) = false :=
                    beq_eq_false_iff_ne.2 h7
                  simp [specRuleFails, h1, h2, h3, h4, h5, h6, h7b]
        · simp [specRuleFails, h1, h2, h3]
      · simp [specRuleFails, h1, h2]
  · intro store c r hm hd ht hc hh
    unfold evaluateBooking
    simp [hm, hd, ht, hc]

/-- Witness for C2: booking 17:30 against a store whose 17:30 slot is held by
an active appointment is rejected with SlotTaken, although 17:30 is also
outside operating hours. -/
theorem booking_rule_order_witness :
    evaluateBooking lateStore sampleClock lateRequest = some Reason.slotTaken :=
  booking_rule_order.2 lateStore sampleClock lateRequest rfl rfl rfl rfl rfl

theorem outsideWorkingHours_true {t : String}
    (h : hourOf t < 8 ∨ 17 < hourOf t ∨ (hourOf t = 17 ∧ 0 < minuteOf t)) :
    outsideWorkingHours t = true := by
  unfold outsideWorkingHours
  rcases h with h1 | h1 | ⟨h1, h2⟩
  · simp [h1]
  · simp [h1]
  · simp [h1, h2]

theorem outsideWorkingHours_false {t : String}
    (h : (8 ≤ hourOf t ∧ hourOf t ≤ 16) ∨ (hourOf t = 17 ∧ minuteOf t = 0)) :
    outsideWorkingHours t = false := by
  unfold outsideWorkingHours
  rcases h with ⟨h1, h2⟩ | ⟨h1, h2⟩
  · simp [h1, h2]; omega
  · simp [h1, h2]

/-- C3: Operating-hours rule: a well-formed, conflict-free candidate whose
time has hour outside [8,17], or hour 17 with minute greater than 0, is
rejected with OutsideHours; in particular a candidate with time "17:30" is so
rejected regardless of date or provider, and a candidate with hour in [8,16],
or 17:00 exactly, is never rejected with OutsideHours. -/
theorem outside_hours_rejection :
    (∀ (store : List Appointment) (c : Clock) (r : BookRequest),
        missingRequired r = false → dateRegexTest r.date = true →
        timeRegexTest r.time = true →
        hasActiveConflict store r.dentist r.date r.time none = false →
        (hourOf r.time < 8 ∨ 17 < hourOf r.time ∨
          (hourOf r.time = 17 ∧ 0 < minuteOf r.time)) →
        evaluateBooking store c r = some Reason.outsideHours) ∧
    (∀ (store : List Appointment) (c : Clock) (r : BookRequest),
        missingRequired r = false → dateRegexTest r.date = true →
        hasActiveConflict store r.dentist r.date r.time none = false →
        r.time = "17:30" →
        evaluateBooking store c r = some Reason.outsideHours) ∧
    (∀ (store : List Appointment) (c : Clock) (r : BookRequest),
        (8 ≤ hourOf r.time ∧ hourOf r.time ≤ 16) ∨
          (hourOf r.time = 17 ∧ minuteOf r.time = 0) →
        evaluateBooking store c r ≠ some Reason.outsideHours) := by
  refine ⟨?_, ?_, ?_⟩
  · intro store c r hm hd ht hc hh
    unfold evaluateBooking
    simp [hm, hd, ht, hc, outsideWorkingHours_true hh]
  · intro store c r hm hd hc htime
    unfold evaluateBooking
    rw [htime] at hc ⊢
    simp [hm, hd, hc, show timeRegexTest "17:30" = true from rfl,
      show outsideWorkingHours "17:30" = true from rfl]
  · intro store c r hh
    have hfalse := outsideWorkingHours_false hh
    unfold evaluateBooking
    split_ifs <;> simp_all

/-- Witness for C3: against the empty store, the sample candidate at 17:30 is
rejected with OutsideHours. -/
theorem outside_hours_rejection_witness :
    evaluateBooking [] sampleClock lateRequest = some Reason.outsideHours :=
  outside_hours_rejection.2.1 [] sampleClock lateRequest rfl rfl rfl rfl

/-- C4: Past-date rule: a candidate that passes rules 1-4 but whose date is
strictly earlier than today is rejected with PastDate, and computeAvailability
for a date strictly earlier than today returns an empty available set
regardless of the booked-times input, while still reporting the grid's total
slot count (19) and setting the past-date flag. -/
theorem past_date_rejection :
    (∀ (store : List Appointment) (c : Clock) (r : BookRequest),
        missingRequired r = false → dateRegexTest r.date = true →
        timeRegexTest r.time = true →
        hasActiveConflict store r.dentist r.date r.time none = false →
        outsideWorkingHours r.time = false →
        dayNum r.date < c.day →
        evaluateBooking store c r = some Reason.pastDate) ∧
    (∀ (c : Clock) (dentist date : String) (bookedTimes : List String),
        dayNum date < c.day →
        (computeAvailability c dentist date bookedTimes).availableSlots = [] ∧
        (computeAvailability c dentist date bookedTimes).totalSlots = 19 ∧
        (computeAvailability c dentist date bookedTimes).isPastDate = true) := by
  constructor
  · intro store c r hm hd ht hc hh hpast
    unfold evaluateBooking
    simp [hm, hd, ht, hc, hh, hpast]
  · intro c dentist date bookedTimes hpast
    unfold computeAvailability
    refine ⟨by simp [hpast], rfl, by simp [hpast]⟩

/-- Witness for C4: the sample candidate moved to 2020-01-15 is rejected with
PastDate, and availability on that past date is empty. -/
theorem past_date_rejection_witness :
    evaluateBooking [] sampleClock pastRequest = some Reason.pastDate ∧
    (computeAvailability sampleClock "Dr. Lee" "2020-01-15" ["09:00"]).availableSlots = [] :=
  ⟨past_date_rejection.1 [] sampleClock pastRequest rfl rfl rfl rfl rfl (by decide),
   (past_date_rejection.2 sampleClock "Dr. Lee" "2020-01-15" ["09:00"] (by decide)).1⟩

theorem hoursDifference_lt_iff (a : Appointment) (now : Int) :
    hoursDifference a now < 24 ↔ apptInstant a - now < 1440 := by
  unfold hoursDifference
  rw [div_lt_iff₀ (by norm_num : (0 : ℚ) < 60)]
  norm_num
  exact_mod_cast Iff.rfl

/-- C5: Cancellation boundary: evaluateCancellation accepts exactly when the
appointment's combined date+time instant is at least 24.0 hours (1440 minutes)
after nowInstant; the concrete appointment `boundaryAppt` exactly 24.0 hours
in the future is accepted, and the same appointment 23 hours 59 minutes in the
future is rejected. -/
theorem cancellation_boundary :
    (∀ (a : Appointment) (now : Int),
        evaluateCancellation a now = true ↔ now + 24 * 60 ≤ apptInstant a) ∧
    apptInstant boundaryAppt - boundaryNow = 1440 ∧
    evaluateCancellation boundaryAppt boundaryNow = true ∧
    apptInstant boundaryAppt - (boundaryNow + 1) = 1439 ∧
    evaluateCancellation boundaryAppt (boundaryNow + 1) = false := by
  have key : ∀ (a : Appointment) (now : Int),
      evaluateCancellation a now = true ↔ now + 24 * 60 ≤ apptInstant a := by
    intro a now
    unfold evaluateCancellation
    split_ifs with h
    · rw [hoursDifference_lt_iff] at h
      constructor
      · intro hf
        exact absurd hf (by simp)
      · intro hle
        exfalso
        omega
    · rw [hoursDifference_lt_iff, not_lt] at h
      constructor
      · intro _
        omega
      · intro _
        trivial
  refine ⟨key, by unfold boundaryNow; omega, ?_, by unfold boundaryNow; omega, ?_⟩
  · exact (key boundaryAppt boundaryNow).2 (by unfold boundaryNow; omega)
  · rcases hb : evaluateCancellation boundaryAppt (boundaryNow + 1) with _ | _
    · rfl
    · have := (key boundaryAppt (boundaryNow + 1)).1 hb
      unfold boundaryNow at this
      omega

/-- Witness for C5: the boundary appointment exactly 24 hours ahead is
accepted for cancellation. -/
theorem cancellation_boundary_witness :
    evaluateCancellation boundaryAppt boundaryNow = true :=
  (cancellation_boundary.1 boundaryAppt boundaryNow).2
    (by unfold boundaryNow; omega)

/-- C6: Availability grid: computeAvailability always generates exactly the 19
slots 08:00, 08:30, ..., 16:30, 17:00 and reports totalSlots = 19; for a
future date with bookedTimes = [09:00, 09:30] it returns 17 available slots,
bookedSlots = 2, and isPastDate = false. -/
theorem availability_grid :
    allSlots = ["08:00", "08:30", "09:00", "09:30", "10:00", "10:30", "11:00",
      "11:30", "12:00", "12:30", "13:00", "13:30", "14:00", "14:30", "15:00",
      "15:30", "16:00", "16:30", "17:00"] ∧
    allSlots.length = 19 ∧
    (∀ c : Clock, c.day ≤ dayNum "2030-01-15" →
      (computeAvailability c "Dr. Lee" "2030-01-15" ["09:00", "09:30"]).availableSlots.length = 17 ∧
      (computeAvailability c "Dr. Lee" "2030-01-15" ["09:00", "09:30"]).totalSlots = 19 ∧
      (computeAvailability c "Dr. Lee" "2030-01-15" ["09:00", "09:30"]).bookedSlots = 2 ∧
      (computeAvailability c "Dr. Lee" "2030-01-15" ["09:00", "09:30"]).isPastDate = false) := by
  refine ⟨by decide, by decide, ?_⟩
  intro c hc
  have hnp : ¬ dayNum "2030-01-15" < c.day := not_lt.2 hc
  unfold computeAvailability
  refine ⟨?_, rfl, rfl, by simp [hnp]⟩
  have hd : decide (dayNum "2030-01-15" < c.day) = false := by simpa using hnp
  simp only [hd, Bool.false_eq_true, if_false]
  decide

/-- Witness for C6: the scenario evaluated at the sample clock, whose day
(2030-01-10) does not exceed the requested date. -/
theorem availability_grid_witness :
    (computeAvailability sampleClock "Dr. Lee" "2030-01-15" ["09:00", "09:30"]).availableSlots.length = 17 :=
  (availability_grid.2.2 sampleClock (by decide)).1

/-- Counterexample to C7 as stated: the time string "9:00" does not match the
strict two-digit HH:mm pattern, yet the otherwise-valid candidate carrying it
is accepted outright (the code's regex allows a one-digit hour), not rejected
with MalformedInput. -/
theorem time_format_counterexample :
    strictHHmm "9:00" = false ∧
    evaluateBooking [] sampleClock oneDigitRequest = none :=
  ⟨rfl, rfl⟩

theorem strictHHmm_implies_regex :
    ∀ t : String, strictHHmm t = true → timeRegexTest t = true := by
  intro t ht
  unfold strictHHmm at ht
  unfold timeRegexTest
  split at ht
  · rename_i h1 h2 m1 m2 heq
    rw [heq]
    simpa using ht
  · exact Bool.noConfusion ht

/-- C7 (amended): for every booking candidate with all required fields present
and a well-formed date, the candidate is rejected with MalformedInput exactly
when its time string fails the regex ([0-1]?[0-9]|2[0-3]):[0-5][0-9], i.e.
24-hour HH:mm whose hour may be written with one digit (0-9) or two digits
(00-19, 20-23) and whose minute is exactly two digits 00-59; every string
matching the spec's strict two-digit pattern also matches the regex, and the
one-digit-hour string "9:00" matches as well (so it is not rejected). -/
theorem time_format_rule :
    (∀ (store : List Appointment) (c : Clock) (r : BookRequest),
        missingRequired r = false → dateRegexTest r.date = true →
        (evaluateBooking store c r = some Reason.malformedInput ↔
          timeRegexTest r.time = false)) ∧
    (∀ t : String, strictHHmm t = true → timeRegexTest t = true) ∧
    timeRegexTest "9:00" = true := by
  refine ⟨?_, strictHHmm_implies_regex, rfl⟩
  intro store c r hm hd
  unfold evaluateBooking
  by_cases ht : timeRegexTest r.time
  · simp only [hm, hd, ht]
    split_ifs <;> simp_all
  · simp [hm, hd, ht]

/-- Witness for C7 (amended): the candidate with time "25:00" is rejected with
MalformedInput, and the well-formed "09:00" matches the regex. -/
theorem time_format_rule_witness :
    evaluateBooking [] sampleClock badTimeRequest = some Reason.malformedInput ∧
    timeRegexTest "09:00" = true :=
  ⟨(time_format_rule.1 [] sampleClock badTimeRequest rfl rfl).2 rfl,
   time_format_rule.2.1 "09:00" rfl⟩

/-- Counterexample to C8 as stated: moving the sample appointment to 17:30
(outside operating hours) through the update handler succeeds - it is not
rejected with OutsideHours - and moving it to the past date 2020-01-01
succeeds as well, not rejected with PastDate. -/
theorem update_unchecked_rules :
    (update sampleStore 1 lateUpdate 999).1 = none ∧
    (update sampleStore 1 lateUpdate 999).2.map (fun a => a.time) = ["17:30"] ∧
    (update sampleStore 1 lateUpdate 999).2.map (fun a => a.status) = [Status.pending] ∧
    (update sampleStore 1 pastUpdate 999).1 = none ∧
    (update sampleStore 1 pastUpdate 999).2.map (fun a => a.date) = ["2020-01-01"] :=
  ⟨rfl, rfl, rfl, rfl, rfl⟩

/-- C8 (amended): an update that changes an appointment's date, time, or
provider is checked only against the slot-conflict rule (excluding the record
being updated): the only possible rejections are SlotTaken and NotFound, and a
changed slot held by another active record is rejected with SlotTaken; the
operating-hours, past-date, past-time and format rules are not applied to
updates. -/
theorem update_policy :
    (∀ (store : List Appointment) (apptId : Nat) (req : UpdateRequest)
        (now : Int) (reason : Reason),
        (update store apptId req now).1 = some reason →
        reason = Reason.slotTaken ∨ reason = Reason.notFound) ∧
    (∀ (store : List Appointment) (apptId : Nat) (req : UpdateRequest)
        (now : Int) (a : Appointment),
        store.find? (fun b => b.appointmentId == apptId && b.userId == req.userId) = some a →
        slotChanged req a = true →
        hasActiveConflict store (req.dentist.getD a.dentist) (req.date.getD a.date)
          (req.time.getD a.time) (some apptId) = true →
        (update store apptId req now).1 = some Reason.slotTaken) := by
  constructor
  · intro store apptId req now reason h
    unfold update at h
    cases hfind : store.find? (fun a => a.appointmentId == apptId && a.userId == req.userId) with
    | none =>
        rw [hfind] at h
        exact Or.inr (Option.some.inj h).symm
    | some a =>
        rw [hfind] at h
        dsimp only at h
        split_ifs at h with h2
        exact Or.inl (Option.some.inj h).symm
  · intro store apptId req now a hfind hsc hconf
    unfold update
    rw [hfind]
    dsimp only
    rw [if_pos (by rw [hsc, hconf]; rfl)]

/-- Witness for C8 (amended): moving the 10:00 appointment onto the occupied
09:00 slot is rejected with SlotTaken. -/
theorem update_policy_witness :
    (update twoStore 2 collideUpdate 50).1 = some Reason.slotTaken :=
  update_policy.2 twoStore 2 collideUpdate 50
    (mkAppointment 2 secondRequest sampleClock) rfl rfl rfl

/-- C10: in computeAvailability, bookedSlots is the raw length of the
booked-times list while availableSlots removes only exact string matches
against the grid; a booked time that is not character-for-character equal to
any grid slot increments bookedSlots without removing any available slot, so
availableSlots.length + bookedSlots can exceed totalSlots (concretely, 20
against 19 for bookedTimes = ["9:00"]). -/
theorem availability_count_overflow :
    (∀ (c : Clock) (dentist date t : String) (bookedTimes : List String),
        allSlots.contains t = false →
        (computeAvailability c dentist date (t :: bookedTimes)).availableSlots =
          (computeAvailability c dentist date bookedTimes).availableSlots ∧
        (computeAvailability c dentist date (t :: bookedTimes)).bookedSlots =
          (computeAvailability c dentist date bookedTimes).bookedSlots + 1) ∧
    (computeAvailability sampleClock "Dr. Lee" "2030-01-15" ["9:00"]).availableSlots.length +
        (computeAvailability sampleClock "Dr. Lee" "2030-01-15" ["9:00"]).bookedSlots = 20 ∧
    (computeAvailability sampleClock "Dr. Lee" "2030-01-15" ["9:00"]).totalSlots = 19 := by
  refine ⟨?_, by decide, by decide⟩
  intro c dentist date t bookedTimes h
  have hmem : ¬ t ∈ allSlots := by simpa using h
  have hfil : (allSlots.filter fun s => !(t :: bookedTimes).contains s) =
      allSlots.filter fun s => !bookedTimes.contains s := by
    apply List.filter_congr
    intro x hx
    have hxt : x ≠ t := fun he => hmem (he ▸ hx)
    simp [List.contains_cons, hxt]
  unfold computeAvailability
  refine ⟨?_, by simp⟩
  dsimp only
  rw [hfil]

/-- Witness for C10: prepending the off-grid time "9:00" leaves the available
set unchanged while incrementing bookedSlots. -/
theorem availability_count_overflow_witness :
    (computeAvailability sampleClock "Dr. Lee" "2030-01-15" ["9:00"]).availableSlots =
      (computeAvailability sampleClock "Dr. Lee" "2030-01-15" []).availableSlots :=
  (availability_count_overflow.1 sampleClock "Dr. Lee" "2030-01-15" "9:00" [] rfl).1

end DentalBliss
